import Mathlib

/-!
# Verification of the InternetWebSearcherMCP crawler core

Shallow embedding of the frontier-traversal / dispatch engine of
`GuyAfik/InternetWebSearcherMCP` (files `src/crawler.py`, `src/main.py`) and
proofs of the spec's claims about it.

Modelling conventions:
* The external fetch collaborator (crawl4ai's `arun` / `arun_many`) is an
  oracle `fetch : String → FetchResult`; `arun_many(urls)` is modelled as
  `urls.map fetch` (one outcome per requested URL; the dispatcher's
  concurrency/memory throttling affects scheduling only, not the value).
* Python sets (`visited`, `current_urls`, `next_level_urls`) are modelled as
  duplicate-free `List String` with insertion-if-absent; only membership
  matters for the claims.
* Python truthiness of `result.markdown` is modelled as `markdown ≠ ""`.
* `max_concurrent` parameters are kept in the signatures but, being pure
  scheduling hints consumed by the external dispatcher, do not influence the
  modelled values.
-/

/-- A single fetch outcome, as the code reads it off a crawl4ai `CrawlResult`:
the (possibly redirect-resolved) `result.url`, `result.success`,
`result.markdown` (empty string for falsy/absent markdown) and the `href`
values of `result.links["internal"]`. -/
structure FetchResult where
  url : String
  success : Bool
  markdown : String
  internalLinks : List String
  deriving DecidableEq, Repr

/-- A `{"url": ..., "markdown": ...}` dict, the element type of every crawl
method's result list. -/
structure PageResult where
  url : String
  markdown : String
  deriving DecidableEq, Repr

/-- `normalize_url` from `src/crawler.py` (local to
`crawl_recursive_internal_links`): `urldefrag(url)[0]`, i.e. everything before
the first `#` of the URL; a URL with no `#` is returned unchanged. -/
def normalize_url (url : String) : String :=
  ⟨url.data.takeWhile (fun c => c ≠ '#')⟩

/-- The mutable state threaded through one level of
`crawl_recursive_internal_links`: the `visited` set, the `next_level_urls`
set being accumulated, and the `results_all` list. -/
structure TravState where
  visited : List String
  next_level_urls : List String
  results_all : List PageResult
  deriving DecidableEq, Repr

/-- Set-insertion for the list-modelled Python sets: add if absent. -/
def insertUrl (u : String) (s : List String) : List String :=
  if u ∈ s then s else s ++ [u]

/-- Body of `for link in result.links.get("internal", [])`: normalize the
href and add it to `next_level_urls` unless already visited. -/
def addLink (visited : List String) (nl : List String) (link : String) : List String :=
  let next_url := normalize_url link
  if next_url ∈ visited then nl else insertUrl next_url nl

/-- Body of `for result in results` in `crawl_recursive_internal_links`
(src/crawler.py lines 112-122): mark `normalize_url(result.url)` visited,
then, if the fetch succeeded with non-empty markdown, append a PageResult and
collect its internal links into `next_level_urls`. -/
def processResult (st : TravState) (r : FetchResult) : TravState :=
  let norm_url := normalize_url r.url
  let visited' := insertUrl norm_url st.visited
  if r.success && r.markdown != "" then
    { visited := visited'
      next_level_urls := r.internalLinks.foldl (addLink visited') st.next_level_urls
      results_all := st.results_all ++ [⟨r.url, r.markdown⟩] }
  else
    { st with visited := visited' }

/-- The `urls_to_crawl` list of one iteration (src/crawler.py lines 100-104):
`[normalize_url(url) for url in current_urls if normalize_url(url) not in visited]`. -/
def urlsToCrawl (visited current : List String) : List String :=
  (current.filter (fun u => !(decide (normalize_url u ∈ visited)))).map normalize_url

/-- Per-level log: the visited set as it stands when the level's batch fetch
is issued, and the level's `urls_to_crawl` batch. -/
structure LevelLog where
  visitedBefore : List String
  toFetch : List String
  deriving DecidableEq, Repr

/-- The `for depth in range(max_depth)` loop of
`crawl_recursive_internal_links` (src/crawler.py lines 99-124), instrumented:
returns the `results_all` produced from this point on together with the log of
every executed level.  Each iteration computes `urls_to_crawl`, breaks if it
is empty, fetches the batch (`arun_many` ↦ `toFetch.map fetch`), folds
`processResult` over the outcomes, and recurses on the updated state.
(The Python loop mutates one shared `results_all`; returning each level's
fresh appends and concatenating is the same sequence.) -/
def crawlLevels (fetch : String → FetchResult) :
    Nat → List String → List String → List PageResult × List LevelLog
  | 0, _, _ => ([], [])
  | d + 1, visited, current =>
    let toFetch := urlsToCrawl visited current
    if toFetch.isEmpty then ([], [])
    else
      let st := (toFetch.map fetch).foldl processResult ⟨visited, [], []⟩
      let rest := crawlLevels fetch d st.visited st.next_level_urls
      (st.results_all ++ rest.1, ⟨visited, toFetch⟩ :: rest.2)

/-- `Crawler.crawl_recursive_internal_links` (src/crawler.py lines 81-126):
`visited = set()`, `current_urls = set(normalize_url(u) for u in start_urls)`,
then the level loop; returns `results_all`. -/
def crawl_recursive_internal_links (fetch : String → FetchResult)
    (start_urls : List String) (max_depth : Nat := 3) (_max_concurrent : Nat := 10) :
    List PageResult :=
  (crawlLevels fetch max_depth [] ((start_urls.map normalize_url).dedup)).1

/-- The traversal's level log (same run as `crawl_recursive_internal_links`):
one entry per executed batch fetch. -/
def levelLogs (fetch : String → FetchResult) (start_urls : List String)
    (max_depth : Nat) : List LevelLog :=
  (crawlLevels fetch max_depth [] ((start_urls.map normalize_url).dedup)).2

/-- `Crawler.crawl_multiple_urls` (src/crawler.py lines 65-79): batch-fetch
`urls` and keep `{"url": r.url, "markdown": r.markdown}` for the outcomes with
`r.success and r.markdown`. -/
def crawl_multiple_urls (fetch : String → FetchResult) (urls : List String)
    (_max_concurrent : Nat := 10) : List PageResult :=
  ((urls.map fetch).filter (fun r => r.success && r.markdown != "")).map
    (fun r => ⟨r.url, r.markdown⟩)

/-- `Crawler.crawl_markdown` (src/crawler.py lines 40-46): single `arun`; on
`result.success and result.markdown` return `[{"url": url, ...}]` (the
requested URL), else `[]`. -/
def crawl_markdown (fetch : String → FetchResult) (url : String) : List PageResult :=
  let result := fetch url
  if result.success && result.markdown != "" then [⟨url, result.markdown⟩] else []

/-- Modelled from the spec: `utils.is_text_url_file`, imported by
`src/main.py` but whose module `utils.py` is not among the sources. Spec §4.1:
"`text_file` when the URL path ends in a plaintext-listing suffix
(e.g. `.txt`)". -/
def is_text_url_file (url : String) : Bool :=
  ".txt".data.isSuffixOf url.data

/-- Modelled from the spec: `utils.is_sitemap_url`, imported by `src/main.py`
but whose module `utils.py` is not among the sources. Spec §4.1: "`sitemap`
when the URL path or query indicates a sitemap resource (e.g. contains
\"sitemap\" and ends in `.xml` ...)". -/
def is_sitemap_url (url : String) : Bool :=
  decide ("sitemap".data <:+: url.data) && ".xml".data.isSuffixOf url.data

/-- The external collaborators consumed by the `Crawler` methods:
`arun`/`arun_many` page fetches (one `FetchResult` per requested URL),
`requests.get` (status code and body) and `ElementTree` sitemap parsing
(`none` models a parse exception, `some l` the texts of the `loc` elements). -/
structure CrawlerOracle where
  arun : String → FetchResult
  getStatus : String → Nat
  getBody : String → String
  parseLocs : String → Option (List String)

/-- `Crawler.crawl_sitemap` (src/crawler.py lines 48-63): GET the sitemap;
on status 200 parse the `loc` URLs (a parse exception leaves `urls = []`);
if `urls` is non-empty delegate to `crawl_multiple_urls`, else return `[]`. -/
def crawl_sitemap (o : CrawlerOracle) (sitemap_url : String)
    (max_concurrent : Nat := 10) : List PageResult :=
  let urls : List String :=
    if o.getStatus sitemap_url = 200 then
      match o.parseLocs (o.getBody sitemap_url) with
      | some l => l
      | none => []
    else []
  if urls.isEmpty then [] else crawl_multiple_urls o.arun urls max_concurrent

/-- src/main.py line 76 evaluates `crawler.simple_crawl(url)`.  The attribute
names `Crawler` (src/crawler.py) defines or inherits for crawling are
`crawl_markdown`, `crawl_sitemap`, `crawl_multiple_urls`,
`crawl_recursive_internal_links`, `adaptive_crawling`, `arun`, `arun_many`;
`simple_crawl` is not among them, so the lookup raises `AttributeError`. -/
def crawlerCrawlAttributes : List String :=
  ["crawl_markdown", "crawl_sitemap", "crawl_multiple_urls",
   "crawl_recursive_internal_links", "adaptive_crawling", "arun", "arun_many"]

/-- Python attribute lookup on a `Crawler` instance: `Except.error` models the
`AttributeError` raised for a name the class does not define. -/
def getattrCrawler (method : String) : Except String Unit :=
  if method ∈ crawlerCrawlAttributes then Except.ok ()
  else Except.error ("'Crawler' object has no attribute '" ++ method ++ "'")

/-- The dict `indepth_crawl_url` serialises to JSON.  Error-shaped responses
carry only `success`/`url`/`error`; the keys they omit are modelled as
`none`/`[]`/`0`. -/
structure CrawlOutcome where
  success : Bool
  crawl_type : Option String
  url : String
  results : List PageResult
  pages_crawled : Nat
  urls_crawled : List String
  error : Option String
  deriving DecidableEq, Repr

/-- src/main.py lines 89-108: the tail of `indepth_crawl_url`.  An exception
from the strategy (`Except.error`) is caught by the `except` clause and
answered in-band as `{"success": False, "url": url, "error": str(e)}`; empty
`crawl_results` answer `{"success": False, ..., "error": "No content found"}`;
otherwise the success envelope with `pages_crawled = len(crawl_results)` and
`urls_crawled = [doc["url"] for doc in crawl_results][:5] + (["..."] if
len(crawl_results) > 5 else [])`. -/
def aggregateOutcome (url : String) (crawl_type : String)
    (branch : Except String (List PageResult)) : CrawlOutcome :=
  match branch with
  | Except.error e => ⟨false, none, url, [], 0, [], some e⟩
  | Except.ok crawl_results =>
    if crawl_results.isEmpty then
      ⟨false, none, url, [], 0, [], some "No content found"⟩
    else
      ⟨true, some crawl_type, url, crawl_results, crawl_results.length,
        (crawl_results.map PageResult.url).take 5 ++
          (if 5 < crawl_results.length then ["..."] else []),
        none⟩

/-- The `deep_crawl_url` tool, `indepth_crawl_url` (src/main.py lines 51-108):
classify the URL, run the selected strategy, aggregate.  The `text_file`
branch evaluates `crawler.simple_crawl(url)`, whose attribute lookup fails
(see `getattrCrawler`), so that branch always lands in the `except` clause. -/
def indepth_crawl_url (o : CrawlerOracle) (url : String)
    (max_depth : Nat := 3) (max_concurrent : Nat := 10) : CrawlOutcome :=
  if is_text_url_file url then
    aggregateOutcome url "text_file"
      ((getattrCrawler "simple_crawl").map (fun _ => crawl_markdown o.arun url))
  else if is_sitemap_url url then
    aggregateOutcome url "sitemap"
      (Except.ok (crawl_sitemap o url max_concurrent))
  else
    aggregateOutcome url "webpage"
      (Except.ok (crawl_recursive_internal_links o.arun [url] max_depth max_concurrent))


/-- Fetch oracle that reports back exactly the requested URL (no redirects). -/
def fetchSelf : String → FetchResult :=
  fun u => ⟨u, true, "m", []⟩

/-- Fetch oracle for the duplicate-fetch counterexample: the request for
`"http://a/"` reports back the redirect-resolved URL `"http://a/r"` and an
internal link pointing back to `"http://a/"`. -/
def redirectFetchA : String → FetchResult :=
  fun u =>
    if u = "http://a/" then ⟨"http://a/r", true, "m", ["http://a/"]⟩
    else ⟨u, true, "m", []⟩

/-- Fetch oracle for the visited-set/redirect observation: the request for
`"http://b/"` reports back `"http://b/moved"` and links back to `"http://b/"`. -/
def redirectFetchB : String → FetchResult :=
  fun u =>
    if u = "http://b/" then ⟨"http://b/moved", true, "m", ["http://b/"]⟩
    else ⟨u, true, "m", []⟩

/-- Fetch oracle for partial-failure isolation: `"http://s/bad"` fails (and
still declares an internal link), `"http://s/ok"` succeeds. -/
def mixedFetch : String → FetchResult :=
  fun u =>
    if u = "http://s/bad" then ⟨"http://s/bad", false, "", ["http://s/bad-link"]⟩
    else if u = "http://s/ok" then ⟨"http://s/ok", true, "good", ["http://s/next"]⟩
    else ⟨u, true, "m", []⟩

/-- Fetch oracle on which every fetch fails. -/
def failFetch : String → FetchResult :=
  fun u => ⟨u, false, "", []⟩

/-- Collaborator oracle on which every fetch fails and the sitemap GET
returns status 500 with an unparseable body. -/
def failOracle : CrawlerOracle where
  arun := failFetch
  getStatus := fun _ => 500
  getBody := fun _ => ""
  parseLocs := fun _ => none

/-- Collaborator oracle whose sitemap GET succeeds with three `loc` URLs. -/
def sitemapOracle : CrawlerOracle where
  arun := fetchSelf
  getStatus := fun _ => 200
  getBody := fun _ => "<urlset>...</urlset>"
  parseLocs := fun _ => some ["http://s/1", "http://s/2", "http://s/3"]

/-- Collaborator oracle whose sitemap GET returns status 500. -/
def badStatusOracle : CrawlerOracle where
  arun := fetchSelf
  getStatus := fun _ => 500
  getBody := fun _ => ""
  parseLocs := fun _ => some ["http://s/1"]

/-- Collaborator oracle whose sitemap body fails to parse as XML. -/
def badXmlOracle : CrawlerOracle where
  arun := fetchSelf
  getStatus := fun _ => 200
  getBody := fun _ => "not xml"
  parseLocs := fun _ => none

/-- Seven page results, for the preview-truncation instances. -/
def pages7 : List PageResult :=
  [⟨"p1", "m"⟩, ⟨"p2", "m"⟩, ⟨"p3", "m"⟩, ⟨"p4", "m"⟩, ⟨"p5", "m"⟩,
   ⟨"p6", "m"⟩, ⟨"p7", "m"⟩]

/-- Three page results, for the preview-truncation instances. -/
def pages3 : List PageResult :=
  [⟨"p1", "m"⟩, ⟨"p2", "m"⟩, ⟨"p3", "m"⟩]

/-- Invariant carried by every frontier set of the traversal: no duplicates,
and every member is already normalized (a fixed point of `normalize_url`). -/
def GoodUrls (c : List String) : Prop :=
  c.Nodup ∧ ∀ u ∈ c, normalize_url u = u

theorem normalize_url_idem (u : String) :
    normalize_url (normalize_url u) = normalize_url u :=
  congrArg String.mk List.takeWhile_idem

theorem normalize_url_eq_self {u : String} (h : ∀ c ∈ u.data, c ≠ '#') :
    normalize_url u = u := by
  cases u with
  | mk l => exact congrArg String.mk (List.takeWhile_eq_self_iff.mpr (by simpa using h))

theorem mem_insertUrl {x u : String} {s : List String} :
    x ∈ insertUrl u s ↔ x = u ∨ x ∈ s := by
  unfold insertUrl
  split
  · rename_i hu
    constructor
    · exact Or.inr
    · rintro (rfl | hx)
      · exact hu
      · exact hx
  · simp [or_comm]

theorem insertUrl_nodup {u : String} {s : List String} (h : s.Nodup) :
    (insertUrl u s).Nodup := by
  unfold insertUrl
  split
  · exact h
  · rename_i hu
    simpa [List.nodup_append] using ⟨h, by simpa using hu⟩

theorem processResult_visited (st : TravState) (r : FetchResult) :
    (processResult st r).visited = insertUrl (normalize_url r.url) st.visited := by
  unfold processResult
  split <;> rfl

theorem processResult_resultsAll (st : TravState) (r : FetchResult) :
    (processResult st r).results_all =
      st.results_all ++
        (if r.success && r.markdown != "" then [(⟨r.url, r.markdown⟩ : PageResult)]
         else []) := by
  unfold processResult
  split <;> simp_all

theorem processResult_nextLevel (st : TravState) (r : FetchResult) :
    (processResult st r).next_level_urls =
      (if r.success && r.markdown != "" then
        r.internalLinks.foldl (addLink (insertUrl (normalize_url r.url) st.visited))
          st.next_level_urls
       else st.next_level_urls) := by
  unfold processResult
  split <;> rfl

theorem mem_visited_foldl {results : List FetchResult} {st : TravState} {x : String} :
    x ∈ (results.foldl processResult st).visited ↔
      x ∈ st.visited ∨ ∃ r ∈ results, x = normalize_url r.url := by
  induction results generalizing st with
  | nil => simp
  | cons r rs ih =>
    simp only [List.foldl_cons, ih, processResult_visited, mem_insertUrl,
      List.mem_cons]
    constructor
    · rintro ((rfl | hv) | ⟨r', hr', rfl⟩)
      · exact Or.inr ⟨r, Or.inl rfl, rfl⟩
      · exact Or.inl hv
      · exact Or.inr ⟨r', Or.inr hr', rfl⟩
    · rintro (hv | ⟨r', hr' | hr', rfl⟩)
      · exact Or.inl (Or.inr hv)
      · exact Or.inl (Or.inl (by rw [hr']))
      · exact Or.inr ⟨r', hr', rfl⟩

theorem resultsAll_foldl (results : List FetchResult) (st : TravState) :
    (results.foldl processResult st).results_all =
      st.results_all ++
        (results.filter (fun r => r.success && r.markdown != "")).map
          (fun r => (⟨r.url, r.markdown⟩ : PageResult)) := by
  induction results generalizing st with
  | nil => simp
  | cons r rs ih =>
    simp only [List.foldl_cons, ih, processResult_resultsAll, List.filter_cons]
    split <;> simp

theorem mem_addLink {v nl : List String} {lk x : String} (hx : x ∈ addLink v nl lk) :
    x ∈ nl ∨ x = normalize_url lk := by
  unfold addLink at hx
  dsimp only at hx
  split at hx
  · exact Or.inl hx
  · rcases mem_insertUrl.mp hx with h | h
    · exact Or.inr h
    · exact Or.inl h

theorem mem_addLink_foldl {v : List String} {links nl : List String} {x : String}
    (hx : x ∈ links.foldl (addLink v) nl) :
    x ∈ nl ∨ ∃ lk ∈ links, x = normalize_url lk := by
  induction links generalizing nl with
  | nil => exact Or.inl hx
  | cons lk lks ih =>
    rcases ih hx with h | ⟨lk', hlk', rfl⟩
    · rcases mem_addLink h with h' | h'
      · exact Or.inl h'
      · exact Or.inr ⟨lk, List.mem_cons_self _ _, h'⟩
    · exact Or.inr ⟨lk', List.mem_cons_of_mem _ hlk', rfl⟩

theorem mem_nextLevel_foldl {results : List FetchResult} {st : TravState} {x : String}
    (hx : x ∈ (results.foldl processResult st).next_level_urls) :
    x ∈ st.next_level_urls ∨
      ∃ r ∈ results, (r.success && r.markdown != "") = true ∧
        ∃ lk ∈ r.internalLinks, x = normalize_url lk := by
  induction results generalizing st with
  | nil => exact Or.inl hx
  | cons r rs ih =>
    rcases ih hx with h | ⟨r', hr', hcond, hl⟩
    · rw [processResult_nextLevel] at h
      split at h
      · rcases mem_addLink_foldl h with h' | ⟨lk, hlk, rfl⟩
        · exact Or.inl h'
        · rename_i hc
          exact Or.inr ⟨r, List.mem_cons_self _ _, hc, lk, hlk, rfl⟩
      · exact Or.inl h
    · exact Or.inr ⟨r', List.mem_cons_of_mem _ hr', hcond, hl⟩

theorem goodUrls_insertUrl {s : List String} {u : String} (h : GoodUrls s)
    (hu : normalize_url u = u) : GoodUrls (insertUrl u s) := by
  refine ⟨insertUrl_nodup h.1, fun x hx => ?_⟩
  rcases mem_insertUrl.mp hx with rfl | hx
  · exact hu
  · exact h.2 x hx

theorem goodUrls_addLink {v nl : List String} {lk : String} (h : GoodUrls nl) :
    GoodUrls (addLink v nl lk) := by
  unfold addLink
  dsimp only
  split
  · exact h
  · exact goodUrls_insertUrl h (normalize_url_idem lk)

theorem goodUrls_addLink_foldl {v : List String} {links nl : List String}
    (h : GoodUrls nl) : GoodUrls (links.foldl (addLink v) nl) := by
  induction links generalizing nl with
  | nil => exact h
  | cons lk lks ih => exact ih (goodUrls_addLink h)

theorem goodUrls_nextLevel_foldl {results : List FetchResult} {st : TravState}
    (h : GoodUrls st.next_level_urls) :
    GoodUrls ((results.foldl processResult st).next_level_urls) := by
  induction results generalizing st with
  | nil => exact h
  | cons r rs ih =>
    refine ih ?_
    rw [processResult_nextLevel]
    split
    · exact goodUrls_addLink_foldl h
    · exact h

theorem mem_urlsToCrawl {v c : List String} {x : String} :
    x ∈ urlsToCrawl v c ↔
      ∃ w, w ∈ c ∧ normalize_url w ∉ v ∧ normalize_url w = x := by
  unfold urlsToCrawl
  simp [List.mem_map, List.mem_filter, and_assoc]

theorem urlsToCrawl_normalized {v c : List String} {x : String}
    (hx : x ∈ urlsToCrawl v c) : normalize_url x = x := by
  rcases mem_urlsToCrawl.mp hx with ⟨w, _, _, rfl⟩
  exact normalize_url_idem w

theorem urlsToCrawl_fresh {v c : List String} {x : String}
    (hx : x ∈ urlsToCrawl v c) : x ∉ v := by
  rcases mem_urlsToCrawl.mp hx with ⟨w, _, hw, rfl⟩
  exact hw

theorem urlsToCrawl_eq_filter {v c : List String}
    (h : ∀ u ∈ c, normalize_url u = u) :
    urlsToCrawl v c = c.filter (fun u => !(decide (u ∈ v))) := by
  unfold urlsToCrawl
  rw [List.filter_congr (fun u hu => by rw [h u hu])]
  have : ∀ u ∈ c.filter (fun u => !(decide (u ∈ v))), normalize_url u = u :=
    fun u hu => h u (List.mem_filter.mp hu).1
  rw [List.map_congr_left this]
  simp

theorem urlsToCrawl_nodup {v c : List String} (h : GoodUrls c) :
    (urlsToCrawl v c).Nodup := by
  rw [urlsToCrawl_eq_filter h.2]
  exact h.1.filter _

theorem crawlLevels_succ (f : String → FetchResult) (d : Nat) (v c : List String) :
    crawlLevels f (d + 1) v c =
      if (urlsToCrawl v c).isEmpty then ([], [])
      else
        ((((urlsToCrawl v c).map f).foldl processResult ⟨v, [], []⟩).results_all ++
            (crawlLevels f d
              (((urlsToCrawl v c).map f).foldl processResult ⟨v, [], []⟩).visited
              (((urlsToCrawl v c).map f).foldl processResult ⟨v, [], []⟩).next_level_urls).1,
          (⟨v, urlsToCrawl v c⟩ : LevelLog) ::
            (crawlLevels f d
              (((urlsToCrawl v c).map f).foldl processResult ⟨v, [], []⟩).visited
              (((urlsToCrawl v c).map f).foldl processResult ⟨v, [], []⟩).next_level_urls).2) :=
  rfl

theorem crawlLevels_logs_length (f : String → FetchResult) (d : Nat) :
    ∀ (v c : List String), (crawlLevels f d v c).2.length ≤ d := by
  induction d with
  | zero => intro v c; simp [crawlLevels]
  | succ d ih =>
    intro v c
    rw [crawlLevels_succ]
    split
    · simp
    · simpa using Nat.succ_le_succ (ih _ _)

theorem crawlLevels_log_mono (f : String → FetchResult) (d : Nat) :
    ∀ (v c : List String), ∀ e ∈ (crawlLevels f d v c).2,
      ∀ x ∈ v, x ∈ e.visitedBefore := by
  induction d with
  | zero => intro v c e he; simp [crawlLevels] at he
  | succ d ih =>
    intro v c e he x hx
    rw [crawlLevels_succ] at he
    split at he
    · simp at he
    · rcases List.mem_cons.mp he with rfl | he'
      · exact hx
      · exact ih _ _ e he' x (mem_visited_foldl.mpr (Or.inl hx))

theorem crawlLevels_log_fresh (f : String → FetchResult) (d : Nat) :
    ∀ (v c : List String), ∀ e ∈ (crawlLevels f d v c).2,
      ∀ u ∈ e.toFetch, u ∉ e.visitedBefore := by
  induction d with
  | zero => intro v c e he; simp [crawlLevels] at he
  | succ d ih =>
    intro v c e he u hu
    rw [crawlLevels_succ] at he
    split at he
    · simp at he
    · rcases List.mem_cons.mp he with rfl | he'
      · exact urlsToCrawl_fresh hu
      · exact ih _ _ e he' u hu

theorem crawlLevels_logs_pairwise (f : String → FetchResult)
    (hf : ∀ u, normalize_url ((f u).url) = normalize_url u) (d : Nat) :
    ∀ (v c : List String),
      ((crawlLevels f d v c).2).Pairwise
        (fun a b => ∀ u ∈ a.toFetch, u ∉ b.toFetch) := by
  induction d with
  | zero => intro v c; simp [crawlLevels]
  | succ d ih =>
    intro v c
    rw [crawlLevels_succ]
    split
    · simp
    · refine List.pairwise_cons.mpr ⟨?_, ih _ _⟩
      intro e he' u hu hu'
      have hnorm : normalize_url u = u := urlsToCrawl_normalized hu
      have hvis :
          u ∈ (((urlsToCrawl v c).map f).foldl processResult ⟨v, [], []⟩).visited := by
        refine mem_visited_foldl.mpr (Or.inr ⟨f u, List.mem_map_of_mem f hu, ?_⟩)
        rw [hf u, hnorm]
      have hbefore := crawlLevels_log_mono f d _ _ e he' u hvis
      exact crawlLevels_log_fresh f d _ _ e he' u hu' hbefore

theorem crawlLevels_log_nodup (f : String → FetchResult) (d : Nat) :
    ∀ (v c : List String), GoodUrls c →
      ∀ e ∈ (crawlLevels f d v c).2, e.toFetch.Nodup := by
  induction d with
  | zero => intro v c _ e he; simp [crawlLevels] at he
  | succ d ih =>
    intro v c hc e he
    rw [crawlLevels_succ] at he
    split at he
    · simp at he
    · rcases List.mem_cons.mp he with rfl | he'
      · exact urlsToCrawl_nodup hc
      · exact ih _ _ (goodUrls_nextLevel_foldl (by exact ⟨List.nodup_nil, by simp⟩)) e he'

theorem goodUrls_init (seeds : List String) :
    GoodUrls ((seeds.map normalize_url).dedup) := by
  refine ⟨List.nodup_dedup _, fun u hu => ?_⟩
  rcases List.mem_map.mp (List.mem_dedup.mp hu) with ⟨w, _, rfl⟩
  exact normalize_url_idem w

theorem levelLogs_one (f : String → FetchResult) (seeds : List String) :
    levelLogs f seeds 1 =
      if ((seeds.map normalize_url).dedup).isEmpty then []
      else [⟨[], (seeds.map normalize_url).dedup⟩] := by
  have htf : urlsToCrawl [] ((seeds.map normalize_url).dedup) =
      (seeds.map normalize_url).dedup := by
    rw [urlsToCrawl_eq_filter (goodUrls_init seeds).2]
    simp
  unfold levelLogs
  rw [crawlLevels_succ, htf]
  split <;> simp [crawlLevels]

/-- C9: `normalize_url` is idempotent and strips exactly the fragment: it
maps `"http://a/b#frag"` to `"http://a/b"`, removes from any URL precisely
the suffix beginning at its first `#`, and leaves a URL containing no `#` —
scheme, host, path, query and trailing slash included — unchanged. -/
theorem C9_normalize_idempotent_strips_fragment :
    (∀ u : String, normalize_url (normalize_url u) = normalize_url u) ∧
    normalize_url "http://a/b#frag" = "http://a/b" ∧
    (∀ u : String,
      (normalize_url u).data ++ u.data.dropWhile (fun c => c ≠ '#') = u.data) ∧
    (∀ u : String, (∀ c ∈ u.data, c ≠ '#') → normalize_url u = u) := by
  refine ⟨normalize_url_idem, by decide,
    fun u => List.takeWhile_append_dropWhile (fun c => decide (c ≠ '#')) u.data,
    fun u h => normalize_url_eq_self h⟩

/-- Witness for C9: the idempotence and no-fragment conjuncts evaluated at
concrete URLs, the hypothesis discharged by computation. -/
theorem C9_witness :
    normalize_url (normalize_url "http://a/b?q=1#x") = normalize_url "http://a/b?q=1#x" ∧
    normalize_url "http://h/p/?q=2" = "http://h/p/?q=2" :=
  ⟨C9_normalize_idempotent_strips_fragment.1 "http://a/b?q=1#x",
   C9_normalize_idempotent_strips_fragment.2.2.2 "http://h/p/?q=2" (by decide)⟩

/-- C1 (code bug): for a URL classified as a text file the deep-crawl tool
never reaches the Fetch Port's single-resource retrieval: `src/main.py` line
76 calls `crawler.simple_crawl(url)`, a method `Crawler` does not define (its
single-resource retrieval, `crawl_markdown`, has no caller), so the attribute
lookup raises `AttributeError`, the `except` clause catches it, and the tool
answers `success=false` with the attribute-error message instead of a
`crawl_type="text_file"` success.  The last conjunct shows `crawl_markdown`
itself would have returned the fetched page content. -/
theorem C1_text_file_branch_raises_attribute_error :
    getattrCrawler "simple_crawl" =
      Except.error "'Crawler' object has no attribute 'simple_crawl'" ∧
    (∀ (o : CrawlerOracle) (d mc : Nat),
      indepth_crawl_url o "http://a/llms.txt" d mc =
        ⟨false, none, "http://a/llms.txt", [], 0, [],
          some "'Crawler' object has no attribute 'simple_crawl'"⟩) ∧
    crawl_markdown fetchSelf "http://a/llms.txt" = [⟨"http://a/llms.txt", "m"⟩] := by
  refine ⟨rfl, fun o d mc => ?_, by decide⟩
  rfl

/-- C2 counterexample: on seeds `["http://x/"]` with `max_depth = 1` the
only executed level issues its batch for `"http://x/"` while the visited set
is still empty — the claim that every `to_fetch` URL is in the VisitedSet
before the fetch is issued is false. -/
theorem C2_counterexample :
    ¬ (∀ e ∈ levelLogs fetchSelf ["http://x/"] 1,
        ∀ u ∈ e.toFetch, u ∈ e.visitedBefore) := by decide

/-- C2 (amended): in every executed level of
`crawl_recursive_internal_links`, every URL of that level's `urls_to_crawl`
is *absent* from the visited set at the moment the batch fetch is issued; the
visited set is extended only after the batch completes, while iterating over
its results, and the URLs added are exactly the normalized result-reported
URLs of the batch's outcomes. -/
theorem C2_visited_updated_after_batch :
    (∀ (f : String → FetchResult) (seeds : List String) (d : Nat),
      ∀ e ∈ levelLogs f seeds d, ∀ u ∈ e.toFetch, u ∉ e.visitedBefore) ∧
    (∀ (visited : List String) (results : List FetchResult) (x : String),
      x ∈ ((results.foldl processResult ⟨visited, [], []⟩).visited) ↔
        x ∈ visited ∨ ∃ r ∈ results, x = normalize_url r.url) := by
  constructor
  · intro f seeds d e he u hu
    exact crawlLevels_log_fresh f d _ _ e he u hu
  · intro visited results x
    exact mem_visited_foldl

/-- Witness for C2's amended statement at a concrete run. -/
theorem C2_witness :
    "http://x/" ∉ (⟨[], ["http://x/"]⟩ : LevelLog).visitedBefore :=
  C2_visited_updated_after_batch.1 fetchSelf ["http://x/"] 1
    ⟨[], ["http://x/"]⟩ (by decide) "http://x/" (by decide)

/-- C3 counterexample: with seed `"http://a/"` and `max_depth = 2`, a fetch
that reports back a redirect-resolved URL (`"http://a/r"`) while linking back
to `"http://a/"` makes the normalized URL `"http://a/"` appear in the
`urls_to_crawl` batches of two distinct levels — it is fetched twice. -/
theorem C3_counterexample :
    levelLogs redirectFetchA ["http://a/"] 2 =
      [⟨[], ["http://a/"]⟩, ⟨["http://a/r"], ["http://a/"]⟩] ∧
    ¬ ((levelLogs redirectFetchA ["http://a/"] 2).Pairwise
        (fun a b => ∀ u ∈ a.toFetch, u ∉ b.toFetch)) := by
  constructor
  · decide
  · decide

/-- C3 (amended): provided every fetch outcome reports back its requested URL
(up to normalization, `normalize_url(result.url) = normalize_url(requested)`),
each normalized URL appears in at most one level's `urls_to_crawl` batch
across the whole traversal, and within each batch at most once — no URL is
ever fetched twice. -/
theorem C3_no_duplicate_fetch :
    ∀ (f : String → FetchResult),
      (∀ u, normalize_url ((f u).url) = normalize_url u) →
      ∀ (seeds : List String) (d : Nat),
        ((levelLogs f seeds d).Pairwise
          (fun a b => ∀ u ∈ a.toFetch, u ∉ b.toFetch)) ∧
        (∀ e ∈ levelLogs f seeds d, e.toFetch.Nodup) := by
  intro f hf seeds d
  constructor
  · exact crawlLevels_logs_pairwise f hf d _ _
  · exact crawlLevels_log_nodup f d _ _ (goodUrls_init seeds)

/-- Witness for C3's amended statement: a redirect-free oracle on a concrete
two-level run. -/
theorem C3_witness :
    ((levelLogs fetchSelf ["http://x/", "http://x/#frag"] 2).Pairwise
      (fun a b => ∀ u ∈ a.toFetch, u ∉ b.toFetch)) ∧
    (∀ e ∈ levelLogs fetchSelf ["http://x/", "http://x/#frag"] 2,
      e.toFetch.Nodup) :=
  C3_no_duplicate_fetch fetchSelf (fun _ => rfl) ["http://x/", "http://x/#frag"] 2

/-- C10: the visited set is updated with the normalized *result-reported* URL
of each fetch outcome, not with the requested URL: an element enters the
visited set during a batch exactly when some outcome of the batch reports it;
a requested URL reported back differently by its own fetch (and by no other
outcome) is never added, and — as the concrete redirect run shows — can
reappear in a later level's `urls_to_crawl` batch. -/
theorem C10_visited_uses_reported_url :
    (∀ (visited : List String) (results : List FetchResult) (x : String),
      x ∈ ((results.foldl processResult ⟨visited, [], []⟩).visited) ↔
        x ∈ visited ∨ ∃ r ∈ results, x = normalize_url r.url) ∧
    (∀ (visited : List String) (results : List FetchResult) (u : String),
      (∀ r ∈ results, normalize_url r.url ≠ u) → u ∉ visited →
      u ∉ ((results.foldl processResult ⟨visited, [], []⟩).visited)) ∧
    levelLogs redirectFetchB ["http://b/"] 2 =
      [⟨[], ["http://b/"]⟩, ⟨["http://b/moved"], ["http://b/"]⟩] := by
  refine ⟨fun visited results x => mem_visited_foldl, ?_, by decide⟩
  intro visited results u hne hu hmem
  rcases mem_visited_foldl.mp hmem with h | ⟨r, hr, rfl⟩
  · exact hu h
  · exact hne r hr rfl

/-- Witness for C10: the requested URL `"http://b/"` of the redirect oracle's
batch is not in the visited set the batch produces. -/
theorem C10_witness :
    "http://b/" ∉ ((["http://b/"].map redirectFetchB).foldl
      processResult ⟨[], [], []⟩).visited :=
  C10_visited_uses_reported_url.2.1 [] (["http://b/"].map redirectFetchB)
    "http://b/" (by decide) (by decide)

/-- C4: the traversal executes at most `max_depth` batch-fetch levels; with
`max_depth = 0` no fetch is issued and the result is empty, and with
`max_depth = 1` the only batch (if any) is exactly the deduplicated
normalized seed list — no discovered link is ever followed. -/
theorem C4_depth_bound :
    (∀ (f : String → FetchResult) (seeds : List String) (d : Nat),
      (levelLogs f seeds d).length ≤ d) ∧
    (∀ (f : String → FetchResult) (seeds : List String) (mc : Nat),
      crawl_recursive_internal_links f seeds 0 mc = [] ∧
      levelLogs f seeds 0 = []) ∧
    (∀ (f : String → FetchResult) (seeds : List String),
      levelLogs f seeds 1 =
        if ((seeds.map normalize_url).dedup).isEmpty then []
        else [⟨[], (seeds.map normalize_url).dedup⟩]) := by
  refine ⟨fun f seeds d => crawlLevels_logs_length f d _ _,
    fun f seeds mc => ⟨rfl, rfl⟩, fun f seeds => levelLogs_one f seeds⟩

/-- C5: a PageResult is produced exactly for the fetch outcomes with
`success` and non-empty markdown — in `crawl_multiple_urls` and in each
traversal level, whose appended results are exactly the successful outcomes
in batch order; only successful outcomes contribute links to the next
frontier; and on a concrete batch of one failing and one succeeding URL,
exactly the successful PageResult is returned. -/
theorem C5_partial_failure_isolation :
    (∀ (f : String → FetchResult) (urls : List String) (mc : Nat) (p : PageResult),
      p ∈ crawl_multiple_urls f urls mc ↔
        ∃ r ∈ urls.map f, (r.success && r.markdown != "") = true ∧
          p = ⟨r.url, r.markdown⟩) ∧
    (∀ (visited : List String) (results : List FetchResult),
      (results.foldl processResult ⟨visited, [], []⟩).results_all =
        (results.filter (fun r => r.success && r.markdown != "")).map
          (fun r => ⟨r.url, r.markdown⟩)) ∧
    (∀ (visited : List String) (results : List FetchResult) (x : String),
      x ∈ (results.foldl processResult ⟨visited, [], []⟩).next_level_urls →
        ∃ r ∈ results, (r.success && r.markdown != "") = true ∧
          ∃ lk ∈ r.internalLinks, x = normalize_url lk) ∧
    crawl_multiple_urls mixedFetch ["http://s/bad", "http://s/ok"] 10 =
      [⟨"http://s/ok", "good"⟩] := by
  refine ⟨fun f urls mc p => ?_, fun visited results => ?_, fun visited results x hx => ?_,
    by decide⟩
  · constructor
    · intro hp
      unfold crawl_multiple_urls at hp
      obtain ⟨r, hr, rfl⟩ := List.mem_map.mp hp
      have h2 := List.mem_filter.mp hr
      exact ⟨r, h2.1, h2.2, rfl⟩
    · rintro ⟨r, hr, hc, rfl⟩
      unfold crawl_multiple_urls
      exact List.mem_map.mpr ⟨r, List.mem_filter.mpr ⟨hr, hc⟩, rfl⟩
  · simpa using resultsAll_foldl results ⟨visited, [], []⟩
  · rcases mem_nextLevel_foldl hx with h | h
    · simp at h
    · exact h

/-- Witness for C5 at concrete batches. -/
theorem C5_witness :
    ((⟨"http://s/ok", "good"⟩ : PageResult) ∈
      crawl_multiple_urls mixedFetch ["http://s/bad", "http://s/ok"] 10) ∧
    (∃ r ∈ ["http://s/ok"].map mixedFetch,
      (r.success && r.markdown != "") = true ∧
      ∃ lk ∈ r.internalLinks, "http://s/next" = normalize_url lk) :=
  ⟨(C5_partial_failure_isolation.1 mixedFetch ["http://s/bad", "http://s/ok"] 10
      ⟨"http://s/ok", "good"⟩).mpr
      ⟨mixedFetch "http://s/ok", by decide, by decide, by decide⟩,
   C5_partial_failure_isolation.2.2.1 [] (["http://s/ok"].map mixedFetch)
      "http://s/next" (by decide)⟩

/-- C6: failures of the deep-crawl tool are reported in-band: a collaborator
exception becomes `{success: false, error: <message>}`, an empty strategy
result becomes `{success: false, error: "No content found"}` — both through
the actual tool function, which is total (never propagates the failure). -/
theorem C6_inband_failure :
    (∀ (url ct e : String),
      aggregateOutcome url ct (Except.error e) =
        ⟨false, none, url, [], 0, [], some e⟩) ∧
    (∀ (url ct : String),
      aggregateOutcome url ct (Except.ok []) =
        ⟨false, none, url, [], 0, [], some "No content found"⟩) ∧
    (∀ (o : CrawlerOracle) (url : String) (d mc : Nat),
      is_text_url_file url = false → is_sitemap_url url = false →
      crawl_recursive_internal_links o.arun [url] d mc = [] →
      indepth_crawl_url o url d mc =
        ⟨false, none, url, [], 0, [], some "No content found"⟩) := by
  refine ⟨fun url ct e => rfl, fun url ct => rfl, ?_⟩
  intro o url d mc h1 h2 h3
  simp only [indepth_crawl_url, h1, h2, h3]
  rfl

/-- Witness for C6: a run whose every fetch fails yields the in-band
"No content found" outcome. -/
theorem C6_witness :
    indepth_crawl_url failOracle "http://w/page" 3 10 =
      ⟨false, none, "http://w/page", [], 0, [], some "No content found"⟩ :=
  C6_inband_failure.2.2 failOracle "http://w/page" 3 10 (by decide) (by decide)
    (by decide)

/-- C7: for a non-empty result list of length n, the preview is the first
min(n, 5) result URLs in order followed by the `"..."` marker exactly when
n > 5; with 7 results it has 5 URLs plus the marker, with 3 results exactly
the 3 URLs and no marker. -/
theorem C7_preview_truncation :
    (∀ (url ct : String) (results : List PageResult), results ≠ [] →
      ((aggregateOutcome url ct (Except.ok results)).urls_crawled =
          (results.map PageResult.url).take 5 ++
            (if 5 < results.length then ["..."] else []) ∧
        (aggregateOutcome url ct (Except.ok results)).urls_crawled.length =
          min results.length 5 + (if 5 < results.length then 1 else 0))) ∧
    (aggregateOutcome "u" "webpage" (Except.ok pages7)).urls_crawled =
      ["p1", "p2", "p3", "p4", "p5", "..."] ∧
    (aggregateOutcome "u" "webpage" (Except.ok pages3)).urls_crawled =
      ["p1", "p2", "p3"] := by
  refine ⟨fun url ct results h => ?_, by decide, by decide⟩
  have hne : results.isEmpty = false := by
    cases results with
    | nil => exact absurd rfl h
    | cons a l => rfl
  constructor
  · simp [aggregateOutcome, hne]
  · by_cases h5 : 5 < results.length <;>
      simp [aggregateOutcome, hne, h5, List.length_take, Nat.min_comm]

/-- Witness for C7 at the seven-result list. -/
theorem C7_witness :
    (aggregateOutcome "u" "webpage" (Except.ok pages7)).urls_crawled =
      (pages7.map PageResult.url).take 5 ++
        (if 5 < pages7.length then ["..."] else []) :=
  (C7_preview_truncation.1 "u" "webpage" pages7 (by decide)).1

/-- C8: `crawl_sitemap` returns the empty sequence when the sitemap GET does
not answer 200 or its body fails to parse as XML (no exception escapes), and
when the parsed `loc` list is non-empty it returns exactly the flat
batch-fetch result over that list with the given concurrency cap. -/
theorem C8_sitemap_error_handling :
    (∀ (o : CrawlerOracle) (url : String) (mc : Nat),
      o.getStatus url ≠ 200 → crawl_sitemap o url mc = []) ∧
    (∀ (o : CrawlerOracle) (url : String) (mc : Nat),
      o.parseLocs (o.getBody url) = none → crawl_sitemap o url mc = []) ∧
    (∀ (o : CrawlerOracle) (url : String) (mc : Nat) (l : List String),
      o.getStatus url = 200 → o.parseLocs (o.getBody url) = some l → l ≠ [] →
      crawl_sitemap o url mc = crawl_multiple_urls o.arun l mc) := by
  refine ⟨fun o url mc h => ?_, fun o url mc h => ?_, fun o url mc l h1 h2 h3 => ?_⟩
  · simp [crawl_sitemap, h]
  · by_cases hs : o.getStatus url = 200
    · simp [crawl_sitemap, hs, h]
    · simp [crawl_sitemap, hs]
  · have hne : l.isEmpty = false := by
      cases l with
      | nil => exact absurd rfl h3
      | cons a t => rfl
    simp [crawl_sitemap, h1, h2, hne]

/-- Witness for C8: the three branches at concrete collaborator oracles. -/
theorem C8_witness :
    crawl_sitemap badStatusOracle "http://s/sitemap.xml" 10 = [] ∧
    crawl_sitemap badXmlOracle "http://s/sitemap.xml" 10 = [] ∧
    crawl_sitemap sitemapOracle "http://s/sitemap.xml" 10 =
      crawl_multiple_urls sitemapOracle.arun
        ["http://s/1", "http://s/2", "http://s/3"] 10 :=
  ⟨C8_sitemap_error_handling.1 badStatusOracle "http://s/sitemap.xml" 10 (by decide),
   C8_sitemap_error_handling.2.1 badXmlOracle "http://s/sitemap.xml" 10 rfl,
   C8_sitemap_error_handling.2.2 sitemapOracle "http://s/sitemap.xml" 10
     ["http://s/1", "http://s/2", "http://s/3"] rfl rfl (by decide)⟩
